import Mathlib

set_option autoImplicit false

namespace Spotdl

/-! Shallow embedding of `spotdl/utils/query.py` and
`spotdl/providers/audio/youtube.py`.

Python strings are modelled as lists of characters (`Str`), Python's
substring test `n in h` as `containsB`, `str.split` on a one-character
separator as `pySplit`, and Python dictionaries (insertion ordered, with
in-place value overwrite on key collision) as association lists built by
`dictInsert`.  Numeric scores use exact rational arithmetic. -/

abbrev Str := List Char

def strOf (s : String) : Str := s.toList

/-- Python `h.startswith(n)`: the needle `n` is a leading segment of `h`. -/
def isPrefOf : Str → Str → Bool
  | [], _ => true
  | _ :: _, [] => false
  | c :: n, d :: h => c == d && isPrefOf n h

/-- Python's substring test `n in h` (first argument is the haystack). -/
def containsB : Str → Str → Bool
  | [], n => n.isEmpty
  | c :: rest, n => isPrefOf n (c :: rest) || containsB rest n

theorem isPrefOf_iff (n h : Str) : isPrefOf n h = true ↔ ∃ t, h = n ++ t := by
  induction n generalizing h with
  | nil => simp [isPrefOf]
  | cons c n ih =>
    cases h with
    | nil => simp [isPrefOf]
    | cons d h =>
      simp only [isPrefOf, Bool.and_eq_true, beq_iff_eq, ih, List.cons_append,
        List.cons.injEq]
      constructor
      · rintro ⟨rfl, t, rfl⟩; exact ⟨t, rfl, rfl⟩
      · rintro ⟨t, rfl, rfl⟩; exact ⟨rfl, t, rfl⟩

theorem containsB_iff (h n : Str) :
    containsB h n = true ↔ ∃ s t, h = s ++ n ++ t := by
  induction h with
  | nil =>
    simp only [containsB, List.isEmpty_iff]
    constructor
    · rintro rfl; exact ⟨[], [], rfl⟩
    · rintro ⟨s, t, hst⟩
      rcases List.append_eq_nil.mp (List.append_eq_nil.mp hst.symm).1 with ⟨_, h2⟩
      exact h2
  | cons c rest ih =>
    simp only [containsB, Bool.or_eq_true, isPrefOf_iff, ih]
    constructor
    · rintro (⟨t, ht⟩ | ⟨s, t, hst⟩)
      · exact ⟨[], t, by simp [ht]⟩
      · exact ⟨c :: s, t, by simp [hst]⟩
    · rintro ⟨s, t, hst⟩
      cases s with
      | nil => exact Or.inl ⟨t, by simpa using hst⟩
      | cons d s =>
        simp only [List.cons_append, List.cons.injEq] at hst
        exact Or.inr ⟨s, t, hst.2⟩

theorem containsB_append_left {h n : Str} (hc : containsB h n = true) (h2 : Str) :
    containsB (h ++ h2) n = true := by
  rcases (containsB_iff h n).mp hc with ⟨s, t, rfl⟩
  exact (containsB_iff _ n).mpr ⟨s, t ++ h2, by simp⟩

theorem containsB_append_right {h n : Str} (hc : containsB h n = true) (h1 : Str) :
    containsB (h1 ++ h) n = true := by
  rcases (containsB_iff h n).mp hc with ⟨s, t, rfl⟩
  exact (containsB_iff _ n).mpr ⟨h1 ++ s, t, by simp⟩

theorem containsB_trans {h m n : Str} (h1 : containsB h m = true)
    (h2 : containsB m n = true) : containsB h n = true := by
  rcases (containsB_iff h m).mp h1 with ⟨s, t, rfl⟩
  rcases (containsB_iff m n).mp h2 with ⟨u, v, rfl⟩
  exact (containsB_iff _ n).mpr ⟨s ++ u, v ++ t, by simp⟩

/-- Python `s.split(sep)` for a one-character separator: every occurrence
splits, empty pieces are kept, and a separator-free string yields `[s]`. -/
def pySplit (sep : Char) : Str → List Str
  | [] => [[]]
  | c :: cs =>
    if c == sep then [] :: pySplit sep cs
    else
      match pySplit sep cs with
      | [] => [[c]]
      | h :: t => (c :: h) :: t

theorem pySplit_ne_nil (sep : Char) (s : Str) : pySplit sep s ≠ [] := by
  cases s with
  | nil => simp [pySplit]
  | cons c cs =>
    simp only [pySplit]
    split
    · simp
    · split
      · simp
      · simp

theorem pySplit_no_sep {sep : Char} {s : Str} (h : sep ∉ s) :
    pySplit sep s = [s] := by
  induction s with
  | nil => rfl
  | cons c cs ih =>
    simp only [List.mem_cons, not_or] at h
    simp only [pySplit, beq_iff_eq]
    rw [if_neg (fun hc => h.1 hc.symm), ih h.2]

theorem pySplit_append {sep : Char} {A B : Str} (hA : sep ∉ A) (hB : sep ∉ B) :
    pySplit sep (A ++ sep :: B) = [A, B] := by
  induction A with
  | nil => simp [pySplit, pySplit_no_sep hB]
  | cons c cs ih =>
    simp only [List.mem_cons, not_or] at hA
    simp only [List.cons_append, pySplit, beq_iff_eq]
    rw [if_neg (fun hc => hA.1 hc.symm), List.append_eq, ih hA.2]

/-- Python `s.endswith(suffix)`. -/
def endsWithB (s suffix : Str) : Bool := isPrefOf suffix.reverse s.reverse

/-- Python `s.lower()` (per-character lowering). -/
def pyLower (s : Str) : Str := s.map Char.toLower

/-- Python `s.replace(a, b)` for one-character `a` and `b`. -/
def pyReplaceChar (a b : Char) (s : Str) : Str :=
  s.map (fun c => if c == a then b else c)

/-! ### The data model

`Song` collects the attributes of `spotdl.types.Song` that the two core
modules read or write; `duration` is kept as an exact rational. -/

structure Song where
  url : Str
  name : Str
  artists : List Str
  duration : ℚ
  isrc : Option Str
  download_url : Option Str
deriving DecidableEq

/-! ### Query dispatcher (`spotdl/utils/query.py`, `parse_query`)

External collaborators (`Song.from_url`, `Song.from_search_term`, the
collection expanders, the manifest reader) live outside the two source
files and are abstracted as an environment of functions.  `from_url`
returning `none` models the fetch raising an exception.  The `scoring`
field stands for the audio provider's search operation; `parse_query`
never calls it, which lets us state that dispatch bypasses scoring. -/

structure QEnv where
  from_url : Str → Option Song
  from_search_term : Str → Song
  playlist_get_urls : Str → List Str
  album_get_urls : Str → List Str
  artist_get_albums : Str → List Str
  saved_get_urls : List Str
  read_manifest : Str → List Song
  scoring : Song → Option Str

inductive QErr where
  | queryError
  | fetchError
deriving DecidableEq

def fetchUrl (env : QEnv) (u : Str) : Except QErr Song :=
  match env.from_url u with
  | some s => .ok s
  | none => .error .fetchError

def ytWatchS : Str := strOf "youtube.com/watch?v="
def ytBeS : Str := strOf "youtu.be/"
def spotifyOpenS : Str := strOf "open.spotify.com"
def trackS : Str := strOf "track"

/-- The combined-token test exactly as the Python condition parses:
`A or (B and C and D and E)`, since `and` binds tighter than `or`. -/
def rule1cond (request : Str) : Bool :=
  containsB request ytWatchS ||
    (containsB request ytBeS && containsB request spotifyOpenS &&
      containsB request trackS && containsB request (strOf "|"))

/-- The combined-token test as the specification words it: a YouTube-style
URL substring, both Spotify track markers, and the literal separator are
all required. -/
def specRule1 (request : Str) : Bool :=
  (containsB request ytWatchS || containsB request ytBeS) &&
    containsB request spotifyOpenS && containsB request trackS &&
    containsB request (strOf "|")

/-- The malformed-split test of the combined branch, exactly as the Python
condition parses: `len ≤ 1 or (no "youtube" and no "youtu.be" in part 0)
or no "spotify" in part 1`. -/
def malformedSplit (split_urls : List Str) : Bool :=
  decide (split_urls.length ≤ 1) ||
    (!containsB (split_urls.getD 0 []) (strOf "youtube") &&
      !containsB (split_urls.getD 0 []) (strOf "youtu.be")) ||
    !containsB (split_urls.getD 1 []) (strOf "spotify")

/-- One iteration of the classification loop of `parse_query`, acting on
the accumulated `(urls, songs)` pair. -/
def classifyStep (env : QEnv) (acc : List Str × List Song) (request : Str) :
    Except QErr (List Str × List Song) :=
  if rule1cond request then
    let split_urls := pySplit '|' request
    if malformedSplit split_urls then .error .queryError
    else
      match fetchUrl env (split_urls.getD 1 []) with
      | .error e => .error e
      | .ok s =>
        .ok (acc.1, acc.2 ++ [{ s with download_url := some (split_urls.getD 0 []) }])
  else if containsB request spotifyOpenS && containsB request trackS then
    .ok (acc.1 ++ [request], acc.2)
  else if containsB request spotifyOpenS && containsB request (strOf "playlist") then
    .ok (acc.1 ++ env.playlist_get_urls request, acc.2)
  else if containsB request spotifyOpenS && containsB request (strOf "album") then
    .ok (acc.1 ++ env.album_get_urls request, acc.2)
  else if containsB request spotifyOpenS && containsB request (strOf "artist") then
    .ok (acc.1 ++ (env.artist_get_albums request).flatMap env.album_get_urls, acc.2)
  else if request == strOf "saved" then
    .ok (acc.1 ++ env.saved_get_urls, acc.2)
  else if endsWithB request (strOf ".spotdl") then
    .ok (acc.1, acc.2 ++ env.read_manifest request)
  else
    .ok (acc.1, acc.2 ++ [env.from_search_term request])

def classifyFold (env : QEnv) :
    List Str × List Song → List Str → Except QErr (List Str × List Song)
  | acc, [] => .ok acc
  | acc, r :: rs =>
    match classifyStep env acc r with
    | .error e => .error e
    | .ok acc2 => classifyFold env acc2 rs

/-- The thread-pool batch `executor.map(Song.from_url, urls)`: results are
yielded in submission order, and the first failing task's exception
propagates out of the whole call. -/
def mapFetch (env : QEnv) : List Str → Except QErr (List Song)
  | [] => .ok []
  | u :: us =>
    match fetchUrl env u with
    | .error e => .error e
    | .ok s =>
      match mapFetch env us with
      | .error e => .error e
      | .ok ss => .ok (s :: ss)

def parse_query (env : QEnv) (query : List Str) : Except QErr (List Song) :=
  match classifyFold env ([], []) query with
  | .error e => .error e
  | .ok acc =>
    match mapFetch env acc.1 with
    | .error e => .error e
    | .ok batch => .ok (acc.2 ++ batch)

instance {ε α : Type} [DecidableEq ε] [DecidableEq α] : DecidableEq (Except ε α)
  | .ok a, .ok b => if h : a = b then .isTrue (by simp [h]) else .isFalse (by simp [h])
  | .error a, .error b => if h : a = b then .isTrue (by simp [h]) else .isFalse (by simp [h])
  | .ok _, .error _ => .isFalse (by simp)
  | .error _, .ok _ => .isFalse (by simp)

/-! ### Concrete environments used by witnesses and counterexamples -/

/-- A fully resolved song carrying only its source URL. -/
def unitSong (u : Str) : Song :=
  { url := u, name := [], artists := [], duration := 0, isrc := none, download_url := none }

/-- A song produced from a free-text search term. -/
def searchSong (t : Str) : Song :=
  { url := [], name := t, artists := [], duration := 0, isrc := none, download_url := none }

/-- An environment in which every URL resolves. -/
def envA : QEnv :=
  { from_url := fun u => some (unitSong u)
    from_search_term := searchSong
    playlist_get_urls := fun _ => []
    album_get_urls := fun _ => []
    artist_get_albums := fun _ => []
    saved_get_urls := []
    read_manifest := fun _ => []
    scoring := fun _ => none }

def badUrl : Str := strOf "https://open.spotify.com/track/bad"

/-- An environment in which exactly one URL's metadata fetch raises. -/
def envB : QEnv :=
  { envA with from_url := fun u => if u == badUrl then none else some (unitSong u) }

def trackTokA : Str := strOf "https://open.spotify.com/track/aaa"
def trackTokA2 : Str := strOf "https://open.spotify.com/track/bbb"
def freeTokA : Str := strOf "hello world"
def goodTok : Str := strOf "https://open.spotify.com/track/good"

/-! ### Claims about the dispatcher -/

/-- Claim C1.  The claim says rule 1 fires iff the token carries a YouTube
URL substring, the Spotify track markers, and the `|` separator, and that a
token with only `youtube.com/watch?v=` is not handled by rule 1.  In the
code, `and` binds tighter than `or`, so the token
`https://youtube.com/watch?v=dQw4` satisfies the code's test `rule1cond`
while failing the claim's test `specRule1`, and `parse_query` handles it
under rule 1, raising the format error instead of treating it as a search
term. -/
theorem C1_rule1_precedence_bug :
    rule1cond (strOf "https://youtube.com/watch?v=dQw4") = true ∧
    specRule1 (strOf "https://youtube.com/watch?v=dQw4") = false ∧
    parse_query envA [strOf "https://youtube.com/watch?v=dQw4"] = .error .queryError := by
  refine ⟨by decide, by decide, by decide⟩

/-- Claim C2 counterexample.  The claim says a Song produced from an earlier
token precedes one produced from a later token.  In `parse_query`, track-URL
tokens are only scheduled and are resolved after the loop, so with a track
URL first and a free-text term second the free-text Song comes out first. -/
theorem C2_counterexample :
    parse_query envA [trackTokA, freeTokA] =
      .ok [searchSong freeTokA, unitSong trackTokA] ∧
    searchSong freeTokA ≠ unitSong trackTokA := by
  refine ⟨by decide, by decide⟩

/-- Refinement spec for the amended claim C2: the URLs one token submits
to the batch under the classification rules, in the code's submission
order (a bare track token submits itself; collection and saved tokens
submit their expansions; all other tokens submit nothing). -/
def specTokenUrls (env : QEnv) (request : Str) : List Str :=
  if rule1cond request then []
  else if containsB request spotifyOpenS && containsB request trackS then [request]
  else if containsB request spotifyOpenS && containsB request (strOf "playlist") then
    env.playlist_get_urls request
  else if containsB request spotifyOpenS && containsB request (strOf "album") then
    env.album_get_urls request
  else if containsB request spotifyOpenS && containsB request (strOf "artist") then
    (env.artist_get_albums request).flatMap env.album_get_urls
  else if request == strOf "saved" then env.saved_get_urls
  else []

/-- Refinement spec for the amended claim C2: the Songs one token
contributes to the first, non-batched phase (a combined token its pinned
Song, a manifest its records, a free-text term its search Song; batched
tokens contribute nothing here). -/
def specTokenSongs (env : QEnv) (request : Str) : Except QErr (List Song) :=
  if rule1cond request then
    if malformedSplit (pySplit '|' request) then .error .queryError
    else
      match fetchUrl env ((pySplit '|' request).getD 1 []) with
      | .error e => .error e
      | .ok s =>
        .ok [{ s with download_url := some ((pySplit '|' request).getD 0 []) }]
  else if containsB request spotifyOpenS && containsB request trackS then .ok []
  else if containsB request spotifyOpenS && containsB request (strOf "playlist") then
    .ok []
  else if containsB request spotifyOpenS && containsB request (strOf "album") then
    .ok []
  else if containsB request spotifyOpenS && containsB request (strOf "artist") then
    .ok []
  else if request == strOf "saved" then .ok []
  else if endsWithB request (strOf ".spotdl") then .ok (env.read_manifest request)
  else .ok [env.from_search_term request]

/-- The first phase of the amended claim C2: per-token Songs concatenated
in token-processing order, with the loop's error propagation. -/
def specLoopSongs (env : QEnv) : List Str → Except QErr (List Song)
  | [] => .ok []
  | t :: ts =>
    match specTokenSongs env t with
    | .error e => .error e
    | .ok ss =>
      match specLoopSongs env ts with
      | .error e => .error e
      | .ok rest => .ok (ss ++ rest)

theorem classifyStep_decomp (env : QEnv) (urls : List Str) (songs : List Song)
    (t : Str) :
    classifyStep env (urls, songs) t =
      match specTokenSongs env t with
      | .error e => .error e
      | .ok ss => .ok (urls ++ specTokenUrls env t, songs ++ ss) := by
  simp only [classifyStep, specTokenSongs, specTokenUrls]
  split_ifs with h1 h2 h3 h4 h5 h6 h7 h8 <;>
    (cases hf : fetchUrl env ((pySplit '|' t).getD 1 []) <;> simp [hf])

theorem classifyFold_decomp (env : QEnv) (q : List Str) :
    ∀ urls songs,
      classifyFold env (urls, songs) q =
        match specLoopSongs env q with
        | .error e => .error e
        | .ok ss => .ok (urls ++ q.flatMap (specTokenUrls env), songs ++ ss) := by
  induction q with
  | nil => intro urls songs; simp [classifyFold, specLoopSongs]
  | cons t ts ih =>
    intro urls songs
    simp only [classifyFold]
    rw [classifyStep_decomp]
    cases hts : specTokenSongs env t with
    | error e => simp [specLoopSongs, hts]
    | ok ss =>
      show classifyFold env (urls ++ specTokenUrls env t, songs ++ ss) ts = _
      rw [ih (urls ++ specTokenUrls env t) (songs ++ ss)]
      cases hrest : specLoopSongs env ts with
      | error e => simp [specLoopSongs, hts, hrest]
      | ok rest => simp [specLoopSongs, hts, hrest, List.append_assoc]

/-- Claim C2, amended.  For every query, dispatch output is assembled in
two phases: first the Songs of the non-batched tokens (combined tokens,
manifests, free text), concatenated in token-processing order
(`specLoopSongs`); then the Songs of every URL the tokens submitted to
the batch, appended after all of them and resolved by `mapFetch` in URL
submission order, regardless of completion order.  The original claim's
global token-processing order fails (see the counterexample): batched
Songs always come last. -/
theorem C2_amended_two_phase (env : QEnv) (q : List Str) :
    parse_query env q =
      match specLoopSongs env q with
      | .error e => .error e
      | .ok songs =>
        match mapFetch env (q.flatMap (specTokenUrls env)) with
        | .error e => .error e
        | .ok batch => .ok (songs ++ batch) := by
  unfold parse_query
  rw [classifyFold_decomp env q [] []]
  cases hs : specLoopSongs env q with
  | error e => rfl
  | ok ss => simp only [List.nil_append]

/-- Claim C3.  The claim says one member URL's fetch failure does not
prevent the other members from being resolved and returned.  In the code
the first exception from `executor.map` propagates out of `parse_query`,
so the whole batch is lost: here the first URL is resolvable, the second
fails, and `parse_query` returns an error instead of the first Song. -/
theorem C3_batch_abort :
    envB.from_url goodTok = some (unitSong goodTok) ∧
    parse_query envB [goodTok, badUrl] = .error .fetchError := by
  refine ⟨by decide, by decide⟩

/-- Claim C4.  For a well-formed combined token `A|B` (YouTube-shaped `A`,
Spotify-track-shaped `B`), dispatch yields exactly one Song whose
`download_url` is `A` and whose remaining metadata is the Spotify-side
fetch of `B`; the result holds for every scoring collaborator, so the
Scoring Engine is never consulted for that Song. -/
theorem C4_combined_token (env : QEnv) (A B : Str) (s : Song)
    (hA : '|' ∉ A) (hB : '|' ∉ B)
    (hyt : containsB A ytWatchS = true ∨ containsB A ytBeS = true)
    (hsp : containsB B spotifyOpenS = true)
    (htr : containsB B trackS = true)
    (hfetch : env.from_url B = some s) :
    ∀ g, parse_query { env with scoring := g } [A ++ '|' :: B] =
      .ok [{ s with download_url := some A }] := by
  intro g
  have hsplit : pySplit '|' (A ++ '|' :: B) = [A, B] := pySplit_append hA hB
  have hpipe : containsB (A ++ '|' :: B) (strOf "|") = true := by
    exact (containsB_iff _ _).mpr ⟨A, B, by simp [strOf]⟩
  have hconsB : ∀ n : Str, containsB B n = true → containsB (A ++ '|' :: B) n = true := by
    intro n hn
    have h1 : containsB ('|' :: B) n = true := by
      simpa using containsB_append_right hn ['|']
    exact containsB_append_right h1 A
  have hrule : rule1cond (A ++ '|' :: B) = true := by
    rcases hyt with h | h
    · simp [rule1cond, containsB_append_left h]
    · simp [rule1cond, containsB_append_left h ('|' :: B), hconsB _ hsp, hconsB _ htr, hpipe]
  have hytb0 : containsB A (strOf "youtube") = true ∨ containsB A (strOf "youtu.be") = true := by
    rcases hyt with h | h
    · exact Or.inl (containsB_trans h (by decide))
    · exact Or.inr (containsB_trans h (by decide))
  have hspot1 : containsB B (strOf "spotify") = true := containsB_trans hsp (by decide)
  have hmal : malformedSplit [A, B] = false := by
    rcases hytb0 with h | h <;> simp [malformedSplit, List.getD, h, hspot1]
  have hstep : classifyStep { env with scoring := g } ([], []) (A ++ '|' :: B) =
      .ok ([], [{ s with download_url := some A }]) := by
    simp [classifyStep, hrule, hsplit, hmal, fetchUrl, hfetch, List.getD]
  simp [parse_query, classifyFold, hstep, mapFetch]

theorem C4_combined_token_witness :
    parse_query { envA with scoring := fun _ => none }
        [strOf "https://youtube.com/watch?v=xyz" ++ '|' :: strOf "https://open.spotify.com/track/abc"] =
      .ok [{ unitSong (strOf "https://open.spotify.com/track/abc") with
              download_url := some (strOf "https://youtube.com/watch?v=xyz") }] :=
  C4_combined_token envA _ _ _ (by decide) (by decide) (Or.inl (by decide))
    (by decide) (by decide) rfl (fun _ => none)

/-- Claim C5.  Any token that enters rule 1 but fails the split validation
(fewer than two parts, no YouTube marker in part 0, or no Spotify marker in
part 1) makes dispatch raise the query-format error. -/
theorem C5_malformed_raises (env : QEnv) (t : Str) (rest : List Str)
    (h1 : rule1cond t = true) (h2 : malformedSplit (pySplit '|' t) = true) :
    parse_query env (t :: rest) = .error .queryError := by
  have hstep : classifyStep env ([], []) t = .error .queryError := by
    simp [classifyStep, h1, h2]
  simp [parse_query, classifyFold, hstep]

theorem C5_malformed_raises_witness :
    parse_query envA
        [strOf "https://open.spotify.com/track/abc|https://youtube.com/watch?v=xyz"] =
      .error .queryError :=
  C5_malformed_raises envA _ [] (by decide) (by decide)

/-! ### Candidate search and scoring (`spotdl/providers/audio/youtube.py`)

A provider result (a `pytube.YouTube` object) is modelled by the four
attributes the engine reads.  The formatter and similarity collaborators
(`slugify`, `create_song_title`, `create_search_query`,
`match_percentage`) and the external search call (`get_results`) live
outside the two source files and are abstracted as an environment.
`get_results` returning `none` models pytube returning no result set.
Scores are exact rationals.  A Python `IndexError` (filter mode indexing
into an empty result list) is modelled as an `Except` error. -/

structure Result where
  video_id : Option Str
  title : Str
  length : ℚ
  watch_url : Option Str
deriving DecidableEq

structure YTEnv where
  slugify : Str → Str
  create_song_title : Str → List Str → Str
  create_search_query : Song → Str → Str
  match_percentage : Str → Str → ℚ
  get_results : Str → Option (List Result)

/-- The two instance attributes of the provider that `search` and
`order_results` read. -/
structure Provider where
  search_query : Option Str
  filter_results : Bool

inductive PyErr where
  | indexError
deriving DecidableEq

/-- Python truthiness of an optional string: `None` and `""` are falsy. -/
def truthyOptStr : Option Str → Bool
  | none => false
  | some s => !s.isEmpty

/-- One Python dict assignment `d[k] = v`: insertion order is kept, an
existing key has its value overwritten in place. -/
def dictInsert (k : Option Str) (v : ℚ) :
    List (Option Str × ℚ) → List (Option Str × ℚ)
  | [] => [(k, v)]
  | (k', v') :: rest =>
    if k' = k then (k, v) :: rest else (k', v') :: dictInsert k v rest

/-- Stable descending insertion used to model Python's stable
`sorted(..., key=score, reverse=True)`. -/
def insertDesc (x : Option Str × ℚ) :
    List (Option Str × ℚ) → List (Option Str × ℚ)
  | [] => [x]
  | y :: ys => if x.2 < y.2 then y :: insertDesc x ys else x :: y :: ys

def sortDesc : List (Option Str × ℚ) → List (Option Str × ℚ)
  | [] => []
  | x :: xs => insertDesc x (sortDesc xs)

/-- `slug_song_title` as computed at the top of `order_results`. -/
def slugSongTitle (env : YTEnv) (p : Provider) (song : Song) : Str :=
  env.slugify
    (if truthyOptStr p.search_query then
      env.create_search_query song (p.search_query.getD [])
    else env.create_song_title song.name song.artists)

/-- `slug_song_name.replace("-", " ").split(" ")`. -/
def sentenceWords (env : YTEnv) (song : Song) : List Str :=
  pySplit ' ' (pyReplaceChar '-' ' ' (env.slugify song.name))

/-- The common-word gate: some non-empty word of the song's slugified name
occurs in the candidate's slugified title. -/
def commonWordB (env : YTEnv) (song : Song) (slug_result_name : Str) : Bool :=
  (sentenceWords env song).any fun w => !w.isEmpty && containsB slug_result_name w

/-- The artist score: per-artist similarity against the candidate's
slugified title, averaged over all of the song's artists. -/
def artistMatch (env : YTEnv) (song : Song) (slug_result_name : Str) : ℚ :=
  (song.artists.foldl
      (fun acc artist => acc + env.match_percentage (env.slugify artist) slug_result_name)
      0) / (song.artists.length : ℚ)

/-- The name score. -/
def nameMatch (env : YTEnv) (p : Provider) (song : Song) (slug_result_name : Str) : ℚ :=
  env.match_percentage slug_result_name (slugSongTitle env p song)

/-- The duration score `100 - (length - duration**2) / duration * 100`. -/
def timeMatch (song : Song) (r : Result) : ℚ :=
  100 - (r.length - song.duration ^ 2) / song.duration * 100

/-- One iteration of the `order_results` loop: skip candidates without a
video id, apply the three gates, then record the average score under the
candidate's watch URL. -/
def scoreStep (env : YTEnv) (p : Provider) (song : Song)
    (acc : List (Option Str × ℚ)) (r : Result) : List (Option Str × ℚ) :=
  if r.video_id = none then acc
  else if commonWordB env song (env.slugify r.title) = false then acc
  else if artistMatch env song (env.slugify r.title) < 70 then acc
  else if nameMatch env p song (env.slugify r.title) < 50 then acc
  else
    dictInsert r.watch_url
      ((artistMatch env song (env.slugify r.title) +
          nameMatch env p song (env.slugify r.title) + timeMatch song r) / 3)
      acc

def order_results (env : YTEnv) (p : Provider) (results : List Result)
    (song : Song) : List (Option Str × ℚ) :=
  results.foldl (scoreStep env p song) []

/-- The search term `search` resolves before querying the provider. -/
def searchTerm (env : YTEnv) (p : Provider) (song : Song) : Str :=
  if truthyOptStr p.search_query then
    env.create_search_query song (p.search_query.getD [])
  else pyLower (env.create_song_title song.name song.artists)

/-- The ISRC fast path: fires only when the ISRC is truthy and its lookup
yields exactly one candidate whose watch URL is not `None`. -/
def isrcShortcut (env : YTEnv) (song : Song) : Option Str :=
  match song.isrc with
  | none => none
  | some i =>
    if i.isEmpty then none
    else
      match env.get_results i with
      | some [c] => c.watch_url
      | _ => none

/-- The body of `search` after the term is resolved: one provider call, the
filter-mode shortcut (which indexes into the result list), or the scored
ordering followed by the stable descending sort. -/
def textSearch (env : YTEnv) (p : Provider) (song : Song) (term : Str) :
    Except PyErr (Option Str) :=
  match env.get_results term with
  | none => .ok none
  | some results =>
    if p.filter_results then
      match results with
      | [] => .error .indexError
      | r :: _ => .ok r.watch_url
    else
      match sortDesc (order_results env p results song) with
      | [] => .ok none
      | (k, _) :: _ => .ok k

def search (env : YTEnv) (p : Provider) (song : Song) : Except PyErr (Option Str) :=
  if truthyOptStr p.search_query then
    textSearch env p song (searchTerm env p song)
  else
    match isrcShortcut env song with
    | some w => .ok (some w)
    | none => textSearch env p song (searchTerm env p song)

/-! ### Structural lemmas about the scoring loop -/

/-- The conjunction of the conditions a candidate must pass to be
recorded by `order_results`. -/
def survives (env : YTEnv) (p : Provider) (song : Song) (r : Result) : Prop :=
  r.video_id ≠ none ∧ commonWordB env song (env.slugify r.title) = true ∧
    ¬ artistMatch env song (env.slugify r.title) < 70 ∧
    ¬ nameMatch env p song (env.slugify r.title) < 50

theorem mem_insertDesc {x y : Option Str × ℚ} {l : List (Option Str × ℚ)} :
    x ∈ insertDesc y l ↔ x = y ∨ x ∈ l := by
  induction l with
  | nil => simp [insertDesc]
  | cons z zs ih =>
    simp only [insertDesc]
    split
    · simp [ih]; tauto
    · simp

theorem mem_sortDesc {x : Option Str × ℚ} {l : List (Option Str × ℚ)} :
    x ∈ sortDesc l ↔ x ∈ l := by
  induction l with
  | nil => simp [sortDesc]
  | cons y ys ih => simp [sortDesc, mem_insertDesc, ih]

theorem mem_dictInsert {x : Option Str × ℚ} {k : Option Str} {v : ℚ}
    {l : List (Option Str × ℚ)} (hx : x ∈ dictInsert k v l) :
    x = (k, v) ∨ x ∈ l := by
  induction l with
  | nil => simpa [dictInsert] using hx
  | cons y ys ih =>
    simp only [dictInsert] at hx
    split at hx
    · rcases List.mem_cons.mp hx with h | h
      · exact Or.inl h
      · exact Or.inr (List.mem_cons_of_mem _ h)
    · rcases List.mem_cons.mp hx with h | h
      · exact Or.inr (h ▸ List.mem_cons_self _ _)
      · rcases ih h with h2 | h2
        · exact Or.inl h2
        · exact Or.inr (List.mem_cons_of_mem _ h2)

theorem mem_scoreStep {env : YTEnv} {p : Provider} {song : Song}
    {acc : List (Option Str × ℚ)} {r : Result} {x : Option Str × ℚ}
    (hx : x ∈ scoreStep env p song acc r) :
    x ∈ acc ∨
      (survives env p song r ∧ x.1 = r.watch_url ∧
        x.2 = (artistMatch env song (env.slugify r.title) +
          nameMatch env p song (env.slugify r.title) + timeMatch song r) / 3) := by
  unfold scoreStep at hx
  split at hx
  · exact Or.inl hx
  · split at hx
    · exact Or.inl hx
    · split at hx
      · exact Or.inl hx
      · split at hx
        · exact Or.inl hx
        · rcases mem_dictInsert hx with h | h
          · refine Or.inr ⟨⟨?_, ?_, ?_, ?_⟩, ?_, ?_⟩ <;> simp_all
          · exact Or.inl h

theorem mem_order_results_aux (env : YTEnv) (p : Provider) (song : Song)
    (results : List Result) :
    ∀ acc (x : Option Str × ℚ), x ∈ results.foldl (scoreStep env p song) acc →
      x ∈ acc ∨ ∃ r ∈ results, survives env p song r ∧ x.1 = r.watch_url ∧
        x.2 = (artistMatch env song (env.slugify r.title) +
          nameMatch env p song (env.slugify r.title) + timeMatch song r) / 3 := by
  induction results with
  | nil => intro acc x hx; exact Or.inl hx
  | cons r rs ih =>
    intro acc x hx
    rcases ih (scoreStep env p song acc r) x hx with h | ⟨r', hr', hprop⟩
    · rcases mem_scoreStep h with h2 | h2
      · exact Or.inl h2
      · exact Or.inr ⟨r, List.mem_cons_self _ _, h2⟩
    · exact Or.inr ⟨r', List.mem_cons_of_mem _ hr', hprop⟩

theorem mem_order_results {env : YTEnv} {p : Provider} {song : Song}
    {results : List Result} {x : Option Str × ℚ}
    (hx : x ∈ order_results env p results song) :
    ∃ r ∈ results, survives env p song r ∧ x.1 = r.watch_url ∧
      x.2 = (artistMatch env song (env.slugify r.title) +
        nameMatch env p song (env.slugify r.title) + timeMatch song r) / 3 := by
  rcases mem_order_results_aux env p song results [] x hx with h | h
  · simp at h
  · exact h

theorem order_results_filter_aux (env : YTEnv) (p : Provider) (song : Song)
    (results : List Result) :
    ∀ acc, results.foldl (scoreStep env p song) acc =
      (results.filter fun r => r.video_id.isSome).foldl (scoreStep env p song) acc := by
  induction results with
  | nil => intro acc; rfl
  | cons r rs ih =>
    intro acc
    by_cases h : r.video_id = none
    · have hstep : scoreStep env p song acc r = acc := by simp [scoreStep, h]
      simp [List.filter_cons, Option.isSome_iff_exists, h, hstep, ih]
    · have hsome : r.video_id.isSome = true := by
        cases hv : r.video_id with
        | none => exact absurd hv h
        | some v => rfl
      simp [List.filter_cons, hsome, ih]

/-- If the non-filter scoring path of `search` returns a watch URL, that
URL belongs to a candidate of the provider's result list that passed every
gate. -/
theorem search_ok_some {env : YTEnv} {p : Provider} {song : Song} {w : Str}
    (hf : p.filter_results = false)
    (hpath : truthyOptStr p.search_query = true ∨ isrcShortcut env song = none)
    (hs : search env p song = .ok (some w)) :
    ∃ results, env.get_results (searchTerm env p song) = some results ∧
      ∃ r ∈ results, survives env p song r ∧ r.watch_url = some w := by
  have hts : textSearch env p song (searchTerm env p song) = .ok (some w) := by
    unfold search at hs
    rcases hpath with h | h
    · rwa [if_pos h] at hs
    · by_cases ht : truthyOptStr p.search_query = true
      · rwa [if_pos ht] at hs
      · rw [if_neg ht, h] at hs; exact hs
  unfold textSearch at hts
  cases hres : env.get_results (searchTerm env p song) with
  | none => rw [hres] at hts; simp at hts
  | some results =>
    rw [hres] at hts
    simp only [hf, Bool.false_eq_true, if_false] at hts
    cases hsort : sortDesc (order_results env p results song) with
    | nil => rw [hsort] at hts; simp at hts
    | cons hd tl =>
      rw [hsort] at hts
      obtain ⟨k, v⟩ := hd
      simp only [Except.ok.injEq] at hts
      have hmem : (k, v) ∈ order_results env p results song :=
        mem_sortDesc.mp (hsort ▸ List.mem_cons_self _ _)
      obtain ⟨r, hr, hsurv, hk, _⟩ := mem_order_results hmem
      exact ⟨results, rfl, r, hr, hsurv, by rw [← hk, hts]⟩

/-! ### Concrete scoring environments used by witnesses and counterexamples -/

def vidUrlS : Str := strOf "https://youtube.com/watch?v=vid123"

/-- A candidate that passes every gate of the default scoring mode. -/
def resPass : Result :=
  { video_id := some (strOf "vid123"), title := strOf "abc test", length := 1,
    watch_url := some vidUrlS }

def prov0 : Provider := { search_query := none, filter_results := false }
def provF : Provider := { search_query := none, filter_results := true }

def songPass : Song :=
  { url := [], name := strOf "test", artists := [strOf "abc"], duration := 1,
    isrc := none, download_url := none }

def songIsrc : Song := { songPass with isrc := some (strOf "ISRC123") }

def ytEnvPass : YTEnv :=
  { slugify := id
    create_song_title := fun n _ => n
    create_search_query := fun _ q => q
    match_percentage := fun _ _ => 100
    get_results := fun _ => some [resPass] }

def ytEnvIsrc : YTEnv :=
  { ytEnvPass with
      get_results := fun t => if t == strOf "ISRC123" then some [resPass] else some [] }

def ytEnvEmptyList : YTEnv :=
  { ytEnvPass with match_percentage := fun _ _ => 0, get_results := fun _ => some [] }

def ytEnvNone : YTEnv := { ytEnvPass with get_results := fun _ => none }

theorem order_resultsPass :
    order_results ytEnvPass prov0 [resPass] songPass = [(some vidUrlS, 100)] := by
  have hcw : commonWordB ytEnvPass songPass (ytEnvPass.slugify resPass.title) = true := by
    decide
  have ham : artistMatch ytEnvPass songPass (ytEnvPass.slugify resPass.title) = 100 := by
    norm_num [artistMatch, ytEnvPass, songPass]
  have hnm : nameMatch ytEnvPass prov0 songPass (ytEnvPass.slugify resPass.title) = 100 := by
    norm_num [nameMatch, ytEnvPass]
  have htm : timeMatch songPass resPass = 100 := by
    norm_num [timeMatch, songPass, resPass]
  simp [order_results, scoreStep, hcw, ham, hnm, htm, dictInsert,
    show ¬(resPass.video_id = none) by simp [resPass],
    show resPass.watch_url = some vidUrlS from rfl,
    show ¬((100 : ℚ) < 70) by norm_num, show ¬((100 : ℚ) < 50) by norm_num,
    show ((100 : ℚ) + 100 + 100) / 3 = 100 by norm_num]

theorem searchPass_eval :
    search ytEnvPass prov0 songPass = .ok (some vidUrlS) := by
  unfold search
  rw [if_neg (by decide)]
  have hshort : isrcShortcut ytEnvPass songPass = none := rfl
  rw [hshort]
  show textSearch ytEnvPass prov0 songPass (searchTerm ytEnvPass prov0 songPass) = _
  unfold textSearch
  have hres : ytEnvPass.get_results (searchTerm ytEnvPass prov0 songPass) =
      some [resPass] := rfl
  rw [hres]
  simp only [show prov0.filter_results = false from rfl, Bool.false_eq_true, if_false]
  rw [order_resultsPass]
  rfl

/-! ### Claims about the scoring engine -/

/-- Claim C6.  With no custom search template and a truthy ISRC, the
engine returns the single ISRC-matched candidate's watch URL immediately
(for any responses the provider would give to text terms, so no text
search, gate, or score is evaluated), while an ISRC lookup with a result
count other than one falls through to the text-search path. -/
theorem C6_isrc_shortcut (env : YTEnv) (p : Provider) (song : Song) (i : Str)
    (rs : List Result)
    (hq : truthyOptStr p.search_query = false)
    (hisrc : song.isrc = some i) (hne : i.isEmpty = false)
    (hres : env.get_results i = some rs) :
    (∀ c w, rs = [c] → c.watch_url = some w → search env p song = .ok (some w)) ∧
    (rs.length ≠ 1 →
      search env p song = textSearch env p song (searchTerm env p song)) := by
  constructor
  · rintro c w rfl hw
    have hshort : isrcShortcut env song = some w := by
      unfold isrcShortcut
      rw [hisrc]
      simp only [hne, Bool.false_eq_true, if_false]
      rw [hres]
      exact hw
    unfold search
    rw [if_neg (by simp [hq]), hshort]
  · intro hlen
    have hshort : isrcShortcut env song = none := by
      unfold isrcShortcut
      rw [hisrc]
      simp only [hne, Bool.false_eq_true, if_false]
      rw [hres]
      cases rs with
      | nil => rfl
      | cons c rest =>
        cases rest with
        | nil => exact absurd rfl hlen
        | cons c2 rest2 => rfl
    unfold search
    rw [if_neg (by simp [hq]), hshort]

theorem C6_isrc_shortcut_witness :
    search ytEnvIsrc prov0 songIsrc = .ok (some vidUrlS) :=
  (C6_isrc_shortcut ytEnvIsrc prov0 songIsrc (strOf "ISRC123") [resPass]
      rfl rfl rfl (by decide)).1 resPass vidUrlS rfl rfl

/-- Claim C7.  In default (non-filter) scoring mode, whenever `search`
returns a watch URL, that URL belongs to a provider candidate whose
slugified title passed the common-word gate, so a candidate sharing no
word with the song's slugified name is never the returned reference. -/
theorem C7_common_word_gate (env : YTEnv) (p : Provider) (song : Song) (w : Str)
    (hf : p.filter_results = false)
    (hpath : truthyOptStr p.search_query = true ∨ isrcShortcut env song = none)
    (hs : search env p song = .ok (some w)) :
    ∃ results, env.get_results (searchTerm env p song) = some results ∧
      ∃ r ∈ results, r.watch_url = some w ∧
        commonWordB env song (env.slugify r.title) = true := by
  obtain ⟨results, hres, r, hr, hsurv, hw⟩ := search_ok_some hf hpath hs
  exact ⟨results, hres, r, hr, hw, hsurv.2.1⟩

theorem C7_common_word_gate_witness :
    ∃ results, ytEnvPass.get_results (searchTerm ytEnvPass prov0 songPass) =
        some results ∧
      ∃ r ∈ results, r.watch_url = some vidUrlS ∧
        commonWordB ytEnvPass songPass (ytEnvPass.slugify r.title) = true :=
  C7_common_word_gate ytEnvPass prov0 songPass vidUrlS rfl (Or.inr rfl) searchPass_eval

/-- Claim C8.  Every score recorded by `order_results` is the exact
arithmetic mean of the artist score, the name score, and the duration
score `100 - (length - duration^2) / duration * 100` of a surviving
candidate with that watch URL; no clamping is applied anywhere. -/
theorem C8_score_formula (env : YTEnv) (p : Provider) (song : Song)
    (results : List Result) (k : Option Str) (q : ℚ)
    (_hd : song.duration ≠ 0) (_ha : song.artists ≠ [])
    (hmem : (k, q) ∈ order_results env p results song) :
    ∃ r ∈ results, r.watch_url = k ∧
      q = (artistMatch env song (env.slugify r.title) +
        nameMatch env p song (env.slugify r.title) +
        (100 - (r.length - song.duration ^ 2) / song.duration * 100)) / 3 := by
  obtain ⟨r, hr, _, hk, hq⟩ := mem_order_results hmem
  exact ⟨r, hr, hk.symm, by simpa [timeMatch] using hq⟩

theorem C8_score_formula_witness :
    ∃ r ∈ [resPass], r.watch_url = some vidUrlS ∧
      (100 : ℚ) = (artistMatch ytEnvPass songPass (ytEnvPass.slugify r.title) +
        nameMatch ytEnvPass prov0 songPass (ytEnvPass.slugify r.title) +
        (100 - (r.length - songPass.duration ^ 2) / songPass.duration * 100)) / 3 :=
  C8_score_formula ytEnvPass prov0 songPass [resPass] (some vidUrlS) 100
    (by norm_num [songPass]) (by simp [songPass])
    (by rw [order_resultsPass]; exact List.mem_singleton.mpr rfl)

/-- Claim C9 counterexample.  The claim says both modes return `None`
when the search yields no results.  With the provider returning an empty
(non-`None`) result list, filter mode indexes `results[0]` and raises an
IndexError instead of returning `None`. -/
theorem C9_counterexample :
    search ytEnvEmptyList provF songPass = .error .indexError := by decide

/-- Claim C9, amended.  If the provider returns no result set (`None`),
`search` returns `None` in both modes; if it returns an empty result
list, default mode returns `None` but filter mode raises an IndexError
from indexing the empty list. -/
theorem C9_no_results (env : YTEnv) (p : Provider) (song : Song)
    (hpath : truthyOptStr p.search_query = true ∨ isrcShortcut env song = none) :
    (env.get_results (searchTerm env p song) = none → search env p song = .ok none) ∧
    (p.filter_results = false → env.get_results (searchTerm env p song) = some [] →
      search env p song = .ok none) ∧
    (p.filter_results = true → env.get_results (searchTerm env p song) = some [] →
      search env p song = .error .indexError) := by
  have hst : search env p song = textSearch env p song (searchTerm env p song) := by
    unfold search
    rcases hpath with h | h
    · rw [if_pos h]
    · by_cases ht : truthyOptStr p.search_query = true
      · rw [if_pos ht]
      · rw [if_neg ht, h]
  refine ⟨?_, ?_, ?_⟩
  · intro hres
    rw [hst]; unfold textSearch; rw [hres]
  · intro hf hres
    rw [hst]; unfold textSearch; rw [hres]
    simp [hf, Bool.false_eq_true, order_results, sortDesc]
  · intro hf hres
    rw [hst]; unfold textSearch; rw [hres]
    simp [hf]

theorem C9_no_results_witness :
    search ytEnvNone prov0 songPass = .ok none :=
  (C9_no_results ytEnvNone prov0 songPass (Or.inr rfl)).1 rfl

/-- Claim C10.  In default scoring mode, candidates without a video id are
discarded before any gate or score is computed (`order_results` is
unchanged by pre-filtering them away), and any watch URL returned by
`search` belongs to a candidate that has a video id. -/
theorem C10_video_id_gate (env : YTEnv) (p : Provider) (song : Song) (w : Str)
    (hf : p.filter_results = false)
    (hpath : truthyOptStr p.search_query = true ∨ isrcShortcut env song = none)
    (hs : search env p song = .ok (some w)) :
    (∀ results, order_results env p results song =
      order_results env p (results.filter fun r => r.video_id.isSome) song) ∧
    ∃ results, env.get_results (searchTerm env p song) = some results ∧
      ∃ r ∈ results, r.video_id ≠ none ∧ r.watch_url = some w := by
  constructor
  · intro results
    exact order_results_filter_aux env p song results []
  · obtain ⟨results, hres, r, hr, hsurv, hw⟩ := search_ok_some hf hpath hs
    exact ⟨results, hres, r, hr, hsurv.1, hw⟩

theorem C10_video_id_gate_witness :
    (∀ results, order_results ytEnvPass prov0 results songPass =
      order_results ytEnvPass prov0 (results.filter fun r => r.video_id.isSome)
        songPass) ∧
    ∃ results, ytEnvPass.get_results (searchTerm ytEnvPass prov0 songPass) =
        some results ∧
      ∃ r ∈ results, r.video_id ≠ none ∧ r.watch_url = some vidUrlS :=
  C10_video_id_gate ytEnvPass prov0 songPass vidUrlS rfl (Or.inr rfl) searchPass_eval

end Spotdl
